import Mathlib

/-!
Verification of the PwnyNextGen intelligence core
(`pwnagotchi_port/nextgen/`: `tactical_engine.py`, `channel_bandit.py`,
`bayesian_optimizer.py`, `__init__.py`) against its natural-language
specification.

The Python modules are shallowly embedded below.  Python floats are
modelled as rationals (`ℚ`); the Gaussian process, which genuinely uses
transcendental functions, is modelled over `ℝ`.  Python `dict`s
(including `defaultdict`) are modelled as association lists with a
replace-or-append assignment (`aset`) and a defaulted lookup
(`alookupD`), which preserves key sets and insertion order exactly as
CPython does.  MAC-address strings stay strings; `str.lower`/`str.upper`
are mapped characterwise (the embedding below), matching CPython on the
ASCII inputs the code handles.  Timestamps (`time.time()`) become
explicit `now`/timestamp parameters.
-/

set_option maxRecDepth 40000

/-- Characterwise lowering of a string, the embedding of Python `str.lower`
for the ASCII MAC/encryption strings handled by the code. -/
def strLower (s : String) : String := ⟨s.data.map Char.toLower⟩

/-- Characterwise uppering of a string, the embedding of Python `str.upper`. -/
def strUpper (s : String) : String := ⟨s.data.map Char.toUpper⟩

/-- Auxiliary substring test on character lists. -/
def subAux : List Char → List Char → Bool
  | n, [] => n.isEmpty
  | n, c :: t => List.isPrefixOf n (c :: t) || subAux n t

/-- Embedding of Python `needle in hay` on strings (substring containment). -/
def containsSub (needle hay : String) : Bool := subAux needle.data hay.data

/-- Lookup in an association list, returning the first binding of the key. -/
def alookup {α β : Type} [DecidableEq α] : List (α × β) → α → Option β
  | [], _ => none
  | p :: t, k => if p.1 = k then some p.2 else alookup t k

/-- Defaulted lookup: the embedding of `dict.get(k, d)` and of reading a
`defaultdict` entry. -/
def alookupD {α β : Type} [DecidableEq α] (l : List (α × β)) (k : α) (d : β) : β :=
  (alookup l k).getD d

/-- Assignment `d[k] = v` on an association list: replace the first binding
in place, else append.  This models CPython dict assignment (which keeps
insertion order). -/
def aset {α β : Type} [DecidableEq α] : List (α × β) → α → β → List (α × β)
  | [], k, v => [(k, v)]
  | p :: t, k, v => if p.1 = k then (k, v) :: t else p :: aset t k v

/-- Key list of an association list. -/
def akeys {α β : Type} (l : List (α × β)) : List α := l.map Prod.fst

/-- Membership-preserving set insertion, the embedding of `set.add` /
first-time dict-key insertion (only key membership is observable). -/
def sinsert (l : List String) (x : String) : List String :=
  if x ∈ l then l else l ++ [x]

/-- Operational modes (`MODE_ACTIVE`, `MODE_PASSIVE`, `MODE_ASSIST`). -/
inductive Mode
  | active
  | passive
  | assist
deriving DecidableEq

/-- Attack variants (`ATTACK_ASSOC_DEAUTH`, `ATTACK_DEAUTH_ONLY`,
`ATTACK_BROADCAST_DEAUTH`, `ATTACK_ASSOC_ONLY`, `ATTACK_SKIP`). -/
inductive Attack
  | assoc_then_deauth
  | deauth_only
  | broadcast_deauth
  | assoc_only
  | skip
deriving DecidableEq

/-- A client record: MAC and last-seen timestamp (the `last_seen` /
`last_seen_at` dict chain collapsed to one present field). -/
structure Client where
  mac : String
  last_seen : ℚ
deriving DecidableEq

/-- An access-point record, the fields of the AP dicts that the engine
reads (`hostname` is never read by the core and is omitted). -/
structure AP where
  mac : String
  encryption : String
  channel : ℕ
  rssi : ℚ
  clients : List Client
  last_seen : ℚ
deriving DecidableEq

/-- `CaptureContext` state.  `_captured` keeps timestamp/path/type values
that no modelled operation ever reads back, so only its key set is kept;
`_pmkids` is a set of MACs; `_captured_clients`, `_interactions` and
`_epoch_interactions` are the corresponding (default-)dicts. -/
structure CaptureContext where
  captured : List String
  pmkids : List String
  captured_clients : List (String × List String)
  interactions : List (String × ℕ)
  epoch_interactions : List (String × ℕ)
deriving DecidableEq

/-- A fresh context whose handshake-directory scan found nothing. -/
def emptyContext : CaptureContext := ⟨[], [], [], [], []⟩

/-- `CaptureContext.has_handshake`. -/
def CaptureContext.has_handshake (ctx : CaptureContext) (mac : String) : Bool :=
  decide (strLower mac ∈ ctx.captured)

/-- `CaptureContext.has_pmkid`. -/
def CaptureContext.has_pmkid (ctx : CaptureContext) (mac : String) : Bool :=
  decide (strLower mac ∈ ctx.pmkids)

/-- `CaptureContext.record_handshake(mac, handshake_type, client_mac)`. -/
def CaptureContext.record_handshake (ctx : CaptureContext) (mac : String)
    (handshake_type : String) (client_mac : Option String) : CaptureContext :=
  let m := strLower mac
  { ctx with
    captured := sinsert ctx.captured m
    pmkids := if handshake_type = "pmkid" then sinsert ctx.pmkids m else ctx.pmkids
    captured_clients :=
      match client_mac with
      | none => ctx.captured_clients
      | some cm =>
          let cur := alookupD ctx.captured_clients m []
          aset ctx.captured_clients m (sinsert cur (strLower cm)) }

/-- `CaptureContext.get_new_clients(ap_mac, current_clients)`. -/
def CaptureContext.get_new_clients (ctx : CaptureContext) (ap_mac : String)
    (current_clients : List Client) : List String :=
  let am := strLower ap_mac
  let captured := alookupD ctx.captured_clients am []
  current_clients.filterMap (fun c =>
    let cm := strLower c.mac
    if cm ≠ "" ∧ cm ∉ captured then some cm else none)

/-- `CaptureContext.get_session_interactions`. -/
def CaptureContext.get_session_interactions (ctx : CaptureContext) (mac : String) : ℕ :=
  alookupD ctx.interactions (strLower mac) 0

/-- `CaptureContext.get_epoch_interactions`. -/
def CaptureContext.get_epoch_interactions (ctx : CaptureContext) (mac : String) : ℕ :=
  alookupD ctx.epoch_interactions (strLower mac) 0

/-- `CaptureContext.record_interaction`. -/
def CaptureContext.record_interaction (ctx : CaptureContext) (mac : String) : CaptureContext :=
  let m := strLower mac
  { ctx with
    interactions := aset ctx.interactions m (alookupD ctx.interactions m 0 + 1)
    epoch_interactions := aset ctx.epoch_interactions m (alookupD ctx.epoch_interactions m 0 + 1) }

/-- `CaptureContext.new_epoch` (clears the per-epoch counters only). -/
def CaptureContext.new_epoch (ctx : CaptureContext) : CaptureContext :=
  { ctx with epoch_interactions := [] }

/-- `TacticalEngine` configuration plus its owned context. -/
structure TacticalEngine where
  context : CaptureContext
  max_interactions_per_epoch : ℕ
  max_targets_per_epoch : ℕ
  mode : Mode
deriving DecidableEq

/-- `TacticalEngine._score_active`, with `time.time()` passed as `now`. -/
def TacticalEngine.score_active (eng : TacticalEngine) (now : ℚ) (ap : AP) : ℚ :=
  let mac := strLower ap.mac
  let encryption := strUpper ap.encryption
  if encryption = "" ∨ encryption = "OPEN" then -500
  else
    let clients := ap.clients
    if eng.context.has_handshake mac then
      let new_clients := eng.context.get_new_clients mac clients
      if new_clients.isEmpty then -1000
      else
        let score := min ((new_clients.length : ℚ) * 2) 8
        let score := score - (eng.context.get_session_interactions mac : ℚ) * (3/2)
        if eng.max_interactions_per_epoch ≤ eng.context.get_epoch_interactions mac then -100
        else score
    else
      let score : ℚ := 0
      let score := score +
        (if containsSub "WPA3" encryption ∨ containsSub "SAE" encryption then 3
         else if containsSub "WPA2" encryption ∨ containsSub "WPA" encryption then 10
         else if containsSub "WEP" encryption then 1
         else 0)
      let score := score + min ((clients.length : ℚ) * 3) 15
      let active_clients := clients.countP (fun c => decide (now - 120 < c.last_seen))
      let score := score + (active_clients : ℚ) * 2
      let score := score +
        (if -50 < ap.rssi then 5
         else if -65 < ap.rssi then 3
         else if -75 < ap.rssi then 3/2
         else if -85 < ap.rssi then 1/2
         else 0)
      let score := score +
        (if ap.last_seen ≠ 0 ∧ now - 60 < ap.last_seen then 3
         else if ap.last_seen ≠ 0 ∧ now - 300 < ap.last_seen then 1
         else 0)
      let score := score - (eng.context.get_session_interactions mac : ℚ) * 1
      if eng.max_interactions_per_epoch ≤ eng.context.get_epoch_interactions mac then -100
      else score

/-- `TacticalEngine._score_passive`. -/
def TacticalEngine.score_passive (eng : TacticalEngine) (now : ℚ) (ap : AP) : ℚ :=
  let encryption := strUpper ap.encryption
  if encryption = "" ∨ encryption = "OPEN" then -500
  else
    let mac := strLower ap.mac
    let score : ℚ := 0
    let score := score - (if eng.context.has_handshake mac then 5 else 0)
    let clients := ap.clients
    let score := score + (clients.length : ℚ) * 5
    let active_clients := clients.countP (fun c => decide (now - 120 < c.last_seen))
    let score := score + (active_clients : ℚ) * 4
    let score := score +
      (if -50 < ap.rssi then 3
       else if -65 < ap.rssi then 2
       else if -75 < ap.rssi then 1
       else 0)
    score

/-- `TacticalEngine._score_assist`. -/
def TacticalEngine.score_assist (eng : TacticalEngine) (now : ℚ) (ap : AP) : ℚ :=
  let encryption := strUpper ap.encryption
  if encryption = "" ∨ encryption = "OPEN" then -500
  else
    let clients := ap.clients
    let score : ℚ := 0
    let score := score + (clients.length : ℚ) * 8
    let active_clients := clients.countP (fun c => decide (now - 120 < c.last_seen))
    let score := score + (active_clients : ℚ) * 5
    let score := score +
      (if -50 < ap.rssi then 4
       else if -65 < ap.rssi then 3
       else if -75 < ap.rssi then 3/2
       else if -85 < ap.rssi then 1/2
       else 0)
    score + 1

/-- `TacticalEngine.score_target` (mode dispatch). -/
def TacticalEngine.score_target (eng : TacticalEngine) (now : ℚ) (ap : AP) : ℚ :=
  match eng.mode with
  | Mode.passive => eng.score_passive now ap
  | Mode.assist => eng.score_assist now ap
  | Mode.active => eng.score_active now ap

/-- `TacticalEngine._select_attack_active`. -/
def TacticalEngine.select_attack_active (eng : TacticalEngine) (ap : AP) : Attack :=
  let mac := strLower ap.mac
  let clients := ap.clients
  if eng.context.has_pmkid mac then
    if clients.isEmpty then Attack.skip else Attack.deauth_only
  else if clients.isEmpty then Attack.assoc_only
  else Attack.assoc_then_deauth

/-- `TacticalEngine._select_attack_assist`. -/
def TacticalEngine.select_attack_assist (_eng : TacticalEngine) (ap : AP) : Attack :=
  if ap.clients.isEmpty then Attack.assoc_only else Attack.broadcast_deauth

/-- `TacticalEngine.select_attack` (mode dispatch). -/
def TacticalEngine.select_attack (eng : TacticalEngine) (ap : AP) : Attack :=
  match eng.mode with
  | Mode.passive => Attack.skip
  | Mode.assist => eng.select_attack_assist ap
  | Mode.active => eng.select_attack_active ap

/-- `TacticalEngine.plan_epoch(all_aps)`.  It first resets the per-epoch
counters (`context.new_epoch()`); the returned pair carries the reset
context next to the plan, modelling the mutation of `self.context`. -/
def TacticalEngine.plan_epoch (eng : TacticalEngine) (now : ℚ) (all_aps : List AP) :
    CaptureContext × List (AP × Attack × ℚ) :=
  let ctx := eng.context.new_epoch
  let eng := { eng with context := ctx }
  if eng.mode = Mode.passive then (ctx, [])
  else
    let scored := all_aps.filterMap (fun ap =>
      let score := eng.score_target now ap
      if 0 < score then
        let attack := eng.select_attack ap
        if attack ≠ Attack.skip then some (ap, attack, score) else none
      else none)
    let sorted := List.insertionSort (fun a b : AP × Attack × ℚ => b.2.2 ≤ a.2.2) scored
    (ctx, sorted.take eng.max_targets_per_epoch)

/-- The per-epoch metrics dict consumed by `RewardV2.__call__`, with all
keys present (the `.get` defaults are only for absent keys). -/
structure EpochData where
  duration_secs : ℚ
  new_unique_handshakes : ℕ
  repeat_handshakes : ℕ
  targets_attacked : ℕ
  uncaptured_targets_attacked : ℕ
  channels_scanned : ℕ
  channels_with_activity : ℕ
  new_aps_discovered : ℕ
deriving DecidableEq

/-- `RewardV2.__call__(epoch_data)`, line for line. -/
def RewardV2 (e : EpochData) : ℚ :=
  let duration := max e.duration_secs 1
  let capture_rate :=
    ((e.new_unique_handshakes : ℚ) * 1 + (e.repeat_handshakes : ℚ) * (1/10)) / (duration / 60)
  let total_attacked : ℚ := (max e.targets_attacked 1 : ℕ)
  let efficiency := (e.uncaptured_targets_attacked : ℚ) / total_attacked
  let exploration := min ((e.new_aps_discovered : ℚ) * (1/10)) (3/10)
  let coverage := (e.channels_with_activity : ℚ) / (max e.channels_scanned 1 : ℕ)
  capture_rate + (3/10) * efficiency + (1/10) * exploration + (1/10) * coverage

/-- Modelled from the spec: the reference reward formula of §4.3
("Reward function (RewardV2)"), written independently from the spec block
so that `RewardV2` can be compared against it. -/
def rewardSpecFormula (e : EpochData) : ℚ :=
  let duration_min := max e.duration_secs 1 / 60
  let capture_rate := ((e.new_unique_handshakes : ℚ) + (1/10) * (e.repeat_handshakes : ℚ)) / duration_min
  let efficiency := (e.uncaptured_targets_attacked : ℚ) / ((max e.targets_attacked 1 : ℕ) : ℚ)
  let exploration := min ((1/10) * (e.new_aps_discovered : ℚ)) (3/10)
  let coverage := (e.channels_with_activity : ℚ) / ((max e.channels_scanned 1 : ℕ) : ℚ)
  capture_rate + (3/10) * efficiency + (1/10) * exploration + (1/10) * coverage

/-- `ChannelBandit` state.  `_bands` is omitted: it is a pure function of
`channels`, never updated after construction and never serialized.
History entries are `(timestamp, reward)` pairs; client-activity entries
are client counts. -/
structure ChannelBandit where
  channels : List ℕ
  window_size : ℕ
  exploration_bonus : ℚ
  mode : Mode
  history : List (ℕ × List (ℚ × ℚ))
  total_scans : List (ℕ × ℕ)
  total_epochs : ℕ
  client_activity : List (ℕ × List ℕ)
deriving DecidableEq

/-- `ChannelBandit.__init__(channels, window_size, exploration_bonus, mode)`:
all histories and counters start empty. -/
def mkChannelBandit (channels : List ℕ) (window_size : ℕ)
    (exploration_bonus : ℚ) (mode : Mode) : ChannelBandit :=
  ⟨channels, window_size, exploration_bonus, mode, [], [], 0, []⟩

/-- `ChannelBandit.boost(channel, weight)`: a synthetic observation is
appended only when the channel is configured; scan counters untouched. -/
def ChannelBandit.boost (b : ChannelBandit) (channel : ℕ) (now weight : ℚ) : ChannelBandit :=
  if channel ∈ b.channels then
    { b with history := aset b.history channel (alookupD b.history channel [] ++ [(now, weight)]) }
  else b

/-- `ChannelBandit.update(channel, reward)`: append the observation and
increment both the per-channel scan counter and the epoch counter. -/
def ChannelBandit.update (b : ChannelBandit) (channel : ℕ) (now reward : ℚ) : ChannelBandit :=
  { b with
    history := aset b.history channel (alookupD b.history channel [] ++ [(now, reward)])
    total_scans := aset b.total_scans channel (alookupD b.total_scans channel 0 + 1)
    total_epochs := b.total_epochs + 1 }

/-- The value produced by `ChannelBandit.get_state` (its JSON dict).  The
dict keys `str(ch)` round-trip through `int(ch_str)` identically, so keys
are kept as `ℕ`. -/
structure BanditState where
  channels : List ℕ
  window_size : ℕ
  exploration_bonus : ℚ
  mode : Mode
  history : List (ℕ × List (ℚ × ℚ))
  total_scans : List (ℕ × ℕ)
  total_epochs : ℕ
  client_activity : List (ℕ × List ℕ)
deriving DecidableEq

/-- `ChannelBandit.get_state`. -/
def ChannelBandit.get_state (b : ChannelBandit) : BanditState :=
  ⟨b.channels, b.window_size, b.exploration_bonus, b.mode,
   b.history, b.total_scans, b.total_epochs, b.client_activity⟩

/-- `ChannelBandit.load_state(state)`: restores window size, exploration
bonus, histories, counters and epoch count by per-key assignment; it does
not touch `channels` or `mode`. -/
def ChannelBandit.load_state (b : ChannelBandit) (s : BanditState) : ChannelBandit :=
  { b with
    window_size := s.window_size
    exploration_bonus := s.exploration_bonus
    history := s.history.foldl (fun acc p => aset acc p.1 p.2) b.history
    total_scans := s.total_scans.foldl (fun acc p => aset acc p.1 p.2) b.total_scans
    total_epochs := s.total_epochs
    client_activity := s.client_activity.foldl (fun acc p => aset acc p.1 p.2) b.client_activity }

/-- `_6G_RAW_CHANNELS` from `channel_bandit.py`. -/
def RAW_CHANNELS_6G : List ℕ :=
  [1, 5, 9, 13, 17, 21, 25, 29, 33, 37, 41, 45,
   49, 53, 57, 61, 65, 69, 73, 77, 81, 85, 89, 93]

/-- `_6G_OFFSET`. -/
def OFFSET_6G : ℕ := 190

/-- `CHANNELS_6G` (offset-form 6 GHz identifiers, all ≥ 191). -/
def CHANNELS_6G : List ℕ := RAW_CHANNELS_6G.map (· + OFFSET_6G)

/-- The channel-list processing of `NextGenBrain.__init__`: fall back to
2.4 GHz channels 1..11 when the sensor supplies none, deduplicate and
sort (`sorted(set(channels))`), then keep only channels `<= 177`. -/
def initChannels (supported : List ℕ) : List ℕ :=
  let channels := if supported.isEmpty then List.range' 1 11 else supported
  let channels := List.insertionSort (· ≤ ·) channels.dedup
  channels.filter (fun ch => ch ≤ 177)

/-- `MAX_OBSERVATIONS` from `bayesian_optimizer.py`. -/
def MAX_OBSERVATIONS : ℕ := 80

/-- `BayesianOptimizer._normalize`: parameters are modelled positionally
(the value list aligned with the bounds list, mirroring the iteration
over `zip(param_names, bounds)`). -/
def normalizeParams (bounds : List (ℚ × ℚ)) (params : List ℚ) : List ℚ :=
  (params.zip bounds).map (fun p => if p.2.1 < p.2.2 then (p.1 - p.2.1) / (p.2.2 - p.2.1) else 1/2)

/-- Python `max(l)` for a nonempty list (first maximal value). -/
def pyListMax (l : List ℚ) : ℚ := l.foldl max (l.headD 0)

/-- Python `l.index(v)`: index of the first occurrence (list length if absent,
a case the code never reaches). -/
def pyIndex : List ℚ → ℚ → ℕ
  | [], _ => 0
  | a :: t, v => if a = v then 0 else pyIndex t v + 1

/-- `BayesianOptimizer` observation state: the three parallel arrays and
the best record.  `best_reward` starts at `float('-inf')`, modelled as
`⊥ : WithBot ℚ`. -/
structure OptState where
  bounds : List (ℚ × ℚ)
  X_history : List (List ℚ)
  y_history : List ℚ
  param_history : List (List ℚ)
  best_reward : WithBot ℚ
  best_params : Option (List ℚ)
deriving DecidableEq

/-- `BayesianOptimizer.__init__` (the observation-state part). -/
def mkOptimizer (bounds : List (ℚ × ℚ)) : OptState :=
  ⟨bounds, [], [], [], ⊥, none⟩

/-- `BayesianOptimizer.observe(params_dict, reward)`: append to the three
arrays, update the best record, then cap the history: when over
`MAX_OBSERVATIONS`, first copy the best entry over slot 0 if its index is
below `len - MAX_OBSERVATIONS + 1`, then drop the oldest `excess` entries. -/
def observe (st : OptState) (params : List ℚ) (reward : ℚ) : OptState :=
  let x := normalizeParams st.bounds params
  let X1 := st.X_history ++ [x]
  let y1 := st.y_history ++ [reward]
  let p1 := st.param_history ++ [params]
  let best1 : WithBot ℚ :=
    if st.best_reward < (reward : WithBot ℚ) then (reward : WithBot ℚ) else st.best_reward
  let bestp1 : Option (List ℚ) :=
    if st.best_reward < (reward : WithBot ℚ) then some params else st.best_params
  if MAX_OBSERVATIONS < X1.length then
    let best_idx := pyIndex y1 (pyListMax y1)
    let move := best_idx < X1.length - MAX_OBSERVATIONS + 1
    let X2 := if move then X1.set 0 (X1.getD best_idx []) else X1
    let y2 := if move then y1.set 0 (y1.getD best_idx 0) else y1
    let p2 := if move then p1.set 0 (p1.getD best_idx []) else p1
    let excess := X1.length - MAX_OBSERVATIONS
    { bounds := st.bounds, X_history := X2.drop excess, y_history := y2.drop excess,
      param_history := p2.drop excess, best_reward := best1, best_params := bestp1 }
  else
    { bounds := st.bounds, X_history := X1, y_history := y1, param_history := p1,
      best_reward := best1, best_params := bestp1 }

/-- A sequence of `observe` calls, oldest first. -/
def runObserve (st : OptState) (obs : List (List ℚ × ℚ)) : OptState :=
  obs.foldl (fun s pr => observe s pr.1 pr.2) st

/-- The jitter `1e-10` used by the Gaussian process. -/
noncomputable def GP_EPS : ℝ := 1 / 10 ^ 10

/-- `GaussianProcess` hyperparameters and training data (`fit` copies
`X`, `y` into these fields). -/
structure GaussianProcess where
  length_scale : ℝ
  noise : ℝ
  X : List (List ℝ)
  y : List ℝ

/-- `GaussianProcess._rbf_kernel(x1, x2)`. -/
noncomputable def rbf_kernel (gp : GaussianProcess) (x1 x2 : List ℝ) : ℝ :=
  let sq_dist := ((x1.zip x2).map (fun p => (p.1 - p.2) ^ 2)).sum
  Real.exp (-(1/2) * sq_dist / gp.length_scale ^ 2)

/-- Entry `(i, j)` of `K(X, X) + noise^2 I` (`_kernel_matrix`), as a
function of indices. -/
noncomputable def kernelEntry (gp : GaussianProcess) (i j : ℕ) : ℝ :=
  rbf_kernel gp (gp.X.getD i []) (gp.X.getD j []) + if i = j then gp.noise ^ 2 else 0

/-- Column `c` of the clamped Cholesky factor of `_cholesky`: the
diagonal is `sqrt(max(A[c][c] - s, 1e-10))` and the sub-diagonal entries
divide by that diagonal.  `cholCol A c i` is `L[i][c]` for `i ≥ c`. -/
noncomputable def cholCol (A : ℕ → ℕ → ℝ) (c : ℕ) (i : ℕ) : ℝ :=
  let sdiag := (((List.range c).attach).map (fun k => (cholCol A k.1 c) ^ 2)).sum
  let d := Real.sqrt (max (A c c - sdiag) GP_EPS)
  if i = c then d
  else
    let s := (((List.range c).attach).map (fun k => cholCol A k.1 i * cholCol A k.1 c)).sum
    (A i c - s) / d
termination_by c
decreasing_by
  all_goals exact List.mem_range.mp k.2

/-- The full factor `L` of `_cholesky` (zero above the diagonal). -/
noncomputable def cholEntry (A : ℕ → ℕ → ℝ) (i j : ℕ) : ℝ :=
  if j ≤ i then cholCol A j i else 0

/-- Tail of `_solve_triangular_lower`: `xs` holds the already-solved
components `x[0..i-1]`, the remaining right-hand side is consumed in
order. -/
noncomputable def forwardSolveGo (L : ℕ → ℕ → ℝ) (xs : List ℝ) : List ℝ → List ℝ
  | [] => xs
  | bi :: rest =>
    let i := xs.length
    let s := ((List.range i).map (fun j => L i j * xs.getD j 0)).sum
    forwardSolveGo L (xs ++ [(bi - s) / L i i]) rest

/-- `GaussianProcess._solve_triangular_lower(L, b)`. -/
noncomputable def forwardSolve (L : ℕ → ℕ → ℝ) (b : List ℝ) : List ℝ :=
  forwardSolveGo L [] b

/-- Tail of `_solve_triangular_upper`, iterating `i` from `n-1` down to 0
over the reversed right-hand side; `xs` holds `x[i+1..n-1]`. -/
noncomputable def backSolveGo (U : ℕ → ℕ → ℝ) (xs : List ℝ) : List ℝ → List ℝ
  | [] => xs
  | bi :: rest =>
    let i := rest.length
    let s := ((List.range xs.length).map (fun t => U i (i + 1 + t) * xs.getD t 0)).sum
    backSolveGo U (((bi - s) / U i i) :: xs) rest

/-- `GaussianProcess._solve_triangular_upper(U, b)`. -/
noncomputable def backSolve (U : ℕ → ℕ → ℝ) (b : List ℝ) : List ℝ :=
  backSolveGo U [] b.reverse

/-- `GaussianProcess.predict(x)`.  The `try/except` around `_cholesky`
is modelled by the total `cholEntry`: the clamp `max(.., 1e-10)` keeps
every diagonal entry positive (`cholCol` diagonal is
`sqrt(max(.., 1e-10)) > 0`), so the source can raise neither `ValueError`
nor `ZeroDivisionError` and the `(0, 1)` fallback branch is unreachable. -/
noncomputable def GaussianProcess.predict (gp : GaussianProcess) (x : List ℝ) : ℝ × ℝ :=
  if gp.X.isEmpty then (0, 1)
  else
    let L := cholEntry (kernelEntry gp)
    let k := gp.X.map (fun xi => rbf_kernel gp xi x)
    let u := forwardSolve L gp.y
    let alpha := backSolve (fun i j => L j i) u
    let mean := ((alpha.zip k).map (fun p => p.1 * p.2)).sum
    let v := forwardSolve L k
    let k_star := rbf_kernel gp x x + gp.noise ^ 2
    let variance := max (k_star - (v.map (fun t => t ^ 2)).sum) GP_EPS
    (mean, variance)

/-- Concrete AP used by the scenario claims: WPA2, decent signal, fresh,
with one associated client that has a MAC. -/
def apCx : AP := ⟨"aa:bb:cc:dd:ee:ff", "WPA2", 6, -60, [⟨"11:22:33:44:55:66", 1000⟩], 1000⟩

/-- The same AP with no associated clients. -/
def apCxNoClients : AP := { apCx with clients := [] }

/-- Context after `record_handshake("aa:bb:cc:dd:ee:ff")` with no client MAC. -/
def ctxC1 : CaptureContext := emptyContext.record_handshake "aa:bb:cc:dd:ee:ff" "full" none

/-- ACTIVE engine over `ctxC1` with the class-default budgets. -/
def engC1 : TacticalEngine := ⟨ctxC1, 5, 20, Mode.active⟩

/-- Context after three `record_interaction("aa:bb:cc:dd:ee:ff")` calls. -/
def ctxC2 : CaptureContext :=
  ((emptyContext.record_interaction "aa:bb:cc:dd:ee:ff").record_interaction
    "aa:bb:cc:dd:ee:ff").record_interaction "aa:bb:cc:dd:ee:ff"

/-- ACTIVE engine with `max_interactions_per_epoch = 3` over `ctxC2`. -/
def engC2 : TacticalEngine := ⟨ctxC2, 3, 20, Mode.active⟩

/-- ACTIVE engine with `max_interactions_per_epoch = 3` over a fresh context. -/
def engFresh : TacticalEngine := ⟨emptyContext, 3, 20, Mode.active⟩

/-- PASSIVE engine over a fresh context. -/
def engPassive : TacticalEngine := ⟨emptyContext, 3, 20, Mode.passive⟩

/-- A PASSIVE-mode bandit over channels `[1, 6]`. -/
def bPassive : ChannelBandit := mkChannelBandit [1, 6] 30 (1/10) Mode.passive

/-- A bandit with nonempty history/counter state (one boost, one update). -/
def bWitness : ChannelBandit :=
  ((mkChannelBandit [1, 6] 30 (1/10) Mode.passive).boost 1 5 (3/10)).update 6 7 1

/-- `MAX_OBSERVATIONS + 50` observations whose very first reward (1) is
the unique best; all later rewards are 0. -/
def obsC4 : List (List ℚ × ℚ) := ([1/3], 1) :: List.replicate 129 ([1/2], 0)

/-- The optimizer state after feeding `obsC4` to a fresh optimizer with
one parameter bounded by `(0, 1)`. -/
def stC4 : OptState := runObserve (mkOptimizer [(0, 1)]) obsC4

/-- A single-observation run used to witness the optimizer invariants. -/
def obsC7 : List (List ℚ × ℚ) := [([1/2], 5)]

/-- The optimizer state after feeding `obsC7` to a fresh optimizer. -/
def stC7 : OptState := runObserve (mkOptimizer [(0, 1)]) obsC7

/-- A fitted one-point Gaussian process used to witness the predict bounds. -/
noncomputable def gpW : GaussianProcess := ⟨1, 1/10, [[0]], [0]⟩

/-- The optimizer history invariant: the three parallel arrays share
their length, the length never exceeds `MAX_OBSERVATIONS`, and every
recorded reward is at most `best_reward`. -/
def OptInv (st : OptState) : Prop :=
  st.X_history.length = st.y_history.length ∧
  st.param_history.length = st.y_history.length ∧
  st.y_history.length ≤ MAX_OBSERVATIONS ∧
  ∀ r ∈ st.y_history, (r : WithBot ℚ) ≤ st.best_reward

theorem akeys_append {α β : Type} (l1 l2 : List (α × β)) :
    akeys (l1 ++ l2) = akeys l1 ++ akeys l2 := by
  simp [akeys]

theorem alookup_aset_self {α β : Type} [DecidableEq α] (l : List (α × β)) (k : α) (v : β) :
    alookup (aset l k v) k = some v := by
  induction l with
  | nil => simp [aset, alookup]
  | cons p t ih =>
    by_cases h : p.1 = k
    · simp [aset, h, alookup]
    · simp [aset, h, alookup, ih]

theorem alookupD_aset_self {α β : Type} [DecidableEq α] (l : List (α × β)) (k : α) (v d : β) :
    alookupD (aset l k v) k d = v := by
  simp [alookupD, alookup_aset_self]

theorem akeys_cons {α β : Type} (p : α × β) (t : List (α × β)) :
    akeys (p :: t) = p.1 :: akeys t := rfl

theorem aset_of_not_mem {α β : Type} [DecidableEq α] (k : α) (v : β) :
    ∀ l : List (α × β), k ∉ akeys l → aset l k v = l ++ [(k, v)]
  | [], _ => by simp [aset]
  | p :: t, h => by
    have h1 : ¬ p.1 = k := by
      intro he
      exact h (by rw [akeys_cons, he]; exact List.mem_cons_self _ _)
    have h2 : k ∉ akeys t := by
      intro he
      exact h (by rw [akeys_cons]; exact List.mem_cons_of_mem _ he)
    simp only [aset, if_neg h1, List.cons_append, List.cons.injEq, true_and]
    exact aset_of_not_mem k v t h2

theorem foldl_aset_eq_append {α β : Type} [DecidableEq α] :
    ∀ (s acc : List (α × β)), (akeys s).Nodup → (∀ x ∈ akeys s, x ∉ akeys acc) →
      s.foldl (fun a p => aset a p.1 p.2) acc = acc ++ s
  | [], acc, _, _ => by simp
  | p :: t, acc, h1, h2 => by
    rw [akeys_cons, List.nodup_cons] at h1
    simp only [List.foldl_cons]
    rw [aset_of_not_mem p.1 p.2 acc
      (h2 p.1 (by rw [akeys_cons]; exact List.mem_cons_self _ _))]
    rw [foldl_aset_eq_append t (acc ++ [(p.1, p.2)]) h1.2 ?side]
    · simp
    case side =>
      intro x hx hmem
      rw [akeys_append] at hmem
      rcases List.mem_append.mp hmem with hA | hB
      · exact h2 x (by rw [akeys_cons]; exact List.mem_cons_of_mem _ hx) hA
      · have hxp : x = p.1 := by simpa [akeys] using hB
        exact h1.1 (hxp ▸ hx)

theorem foldl_aset_nil {α β : Type} [DecidableEq α] {s : List (α × β)}
    (h : (akeys s).Nodup) : s.foldl (fun a p => aset a p.1 p.2) [] = s := by
  simpa using foldl_aset_eq_append s [] h (by simp [akeys])

theorem foldl_max_mem (l : List ℚ) (a : ℚ) : l.foldl max a = a ∨ l.foldl max a ∈ l := by
  induction l generalizing a with
  | nil => left; rfl
  | cons b t ih =>
    simp only [List.foldl_cons]
    rcases ih (max a b) with h | h
    · rw [h]
      rcases max_choice a b with h2 | h2
      · left; exact h2
      · right; rw [h2]; exact List.mem_cons_self _ _
    · right; exact List.mem_cons_of_mem _ h

theorem pyListMax_mem {l : List ℚ} (h : l ≠ []) : pyListMax l ∈ l := by
  match l, h with
  | a :: t, _ =>
    unfold pyListMax
    simp only [List.headD_cons, List.foldl_cons, max_self]
    rcases foldl_max_mem t a with h2 | h2
    · rw [h2]; exact List.mem_cons_self _ _
    · exact List.mem_cons_of_mem _ h2

theorem pyIndex_lt_length {l : List ℚ} {v : ℚ} (h : v ∈ l) : pyIndex l v < l.length := by
  induction l with
  | nil => cases h
  | cons a t ih =>
    unfold pyIndex
    by_cases hav : a = v
    · simp [hav]
    · simp only [if_neg hav, List.length_cons, Nat.add_lt_add_iff_right]
      apply ih
      rcases List.mem_cons.mp h with h1 | h1
      · exact absurd h1.symm hav
      · exact h1

/-- C8: `RewardV2` computes exactly the reference formula of the spec:
`(new_unique + 0.1·repeat) / (max(duration_secs, 1)/60)
 + 0.3·(uncaptured_attacked / max(targets_attacked, 1))
 + 0.1·min(0.1·new_aps_discovered, 0.3)
 + 0.1·(channels_with_activity / max(channels_scanned, 1))`. -/
theorem c8_reward_formula (e : EpochData) : RewardV2 e = rewardSpecFormula e := by
  simp only [RewardV2, rewardSpecFormula]
  ring_nf

/-- C10: `boost` on a channel outside the configured channel list leaves
the bandit state completely unchanged, while `update` records an
observation and bumps both counters for any channel whatsoever. -/
theorem c10_boost_frame :
    (∀ (b : ChannelBandit) (c : ℕ) (t w : ℚ), c ∉ b.channels → b.boost c t w = b) ∧
    (∀ (b : ChannelBandit) (c : ℕ) (t r : ℚ),
      alookupD (b.update c t r).history c [] = alookupD b.history c [] ++ [(t, r)] ∧
      alookupD (b.update c t r).total_scans c 0 = alookupD b.total_scans c 0 + 1 ∧
      (b.update c t r).total_epochs = b.total_epochs + 1) := by
  constructor
  · intro b c t w h
    simp [ChannelBandit.boost, h]
  · intro b c t r
    refine ⟨?_, ?_, rfl⟩
    · simp [ChannelBandit.update, alookupD_aset_self]
    · simp [ChannelBandit.update, alookupD_aset_self]

unseal Rat.add Rat.mul Rat.sub Rat.inv in
theorem c10_boost_frame_witness :
    (99 ∉ bWitness.channels) ∧ bWitness.boost 99 0 (3/10) = bWitness :=
  ⟨by decide, c10_boost_frame.1 bWitness 99 0 (3/10) (by decide)⟩

/-- C5 counterexample: channel 191 is an offset-form 6 GHz channel
(member of `CHANNELS_6G`), yet the orchestrator construction drops it
from the bandit channel list: the filter keeps only channels `≤ 177`,
contradicting the claim that offset-form 6 GHz channels are preserved. -/
theorem c5_channels_counterexample :
    191 ∈ CHANNELS_6G ∧
      191 ∉ (mkChannelBandit (initChannels [1, 191]) 30 (1/10) Mode.active).channels := by
  decide

/-- C5 amended: for a nonempty sensor channel list, the bandit channel
list contains exactly the supplied channels that are `≤ 177`; every
channel above 177 — including every offset-form 6 GHz channel, which is
≥ 191 — is dropped. -/
theorem c5_channels_amended (supported : List ℕ) (h : ¬ supported.isEmpty = true) (ch : ℕ) :
    ch ∈ initChannels supported ↔ (ch ∈ supported ∧ ch ≤ 177) := by
  unfold initChannels
  simp only [if_neg h, List.mem_filter, decide_eq_true_eq]
  rw [(List.perm_insertionSort (· ≤ ·) supported.dedup).mem_iff, List.mem_dedup]

theorem c5_channels_amended_witness :
    ¬ ([1, 191] : List ℕ).isEmpty = true ∧
      (191 ∈ initChannels [1, 191] ↔ (191 ∈ ([1, 191] : List ℕ) ∧ 191 ≤ 177)) :=
  ⟨by decide, c5_channels_amended [1, 191] (by decide) 191⟩

/-- C3 counterexample: the `get_state`/`load_state` round trip does not
restore the `mode` field — `load_state` never reads it — so a PASSIVE
bandit loaded into a freshly constructed (default ACTIVE) bandit over the
same channel list comes back ACTIVE. -/
theorem c3_roundtrip_counterexample :
    ((mkChannelBandit bPassive.channels 30 (1/10) Mode.active).load_state
        bPassive.get_state).mode ≠ bPassive.mode := by
  decide

/-- C3 amended: loading `b.get_state()` into a second bandit constructed
over the same channel list restores the per-channel observation history,
the total-scan counters, the epoch count, the client-activity windows,
the window size and the exploration bonus — every serialized component
except `mode`, which keeps the second bandit's constructor value.  (The
key-distinctness hypotheses state that `b`'s dict models are genuine
dicts.) -/
theorem c3_roundtrip_amended (b : ChannelBandit)
    (hh : (akeys b.history).Nodup) (hs : (akeys b.total_scans).Nodup)
    (hc : (akeys b.client_activity).Nodup) (w : ℕ) (e : ℚ) (m : Mode) :
    (mkChannelBandit b.channels w e m).load_state b.get_state = { b with mode := m } := by
  unfold ChannelBandit.load_state ChannelBandit.get_state mkChannelBandit
  simp [foldl_aset_nil hh, foldl_aset_nil hs, foldl_aset_nil hc]

unseal Rat.add Rat.mul Rat.sub Rat.inv in
theorem c3_roundtrip_amended_witness :
    (akeys bWitness.history).Nodup ∧
      (mkChannelBandit bWitness.channels 30 (1/10) Mode.active).load_state
          bWitness.get_state = { bWitness with mode := Mode.active } :=
  ⟨by decide,
   c3_roundtrip_amended bWitness (by decide) (by decide) (by decide) 30 (1/10) Mode.active⟩

theorem observe_step (st : OptState) (p : List ℚ) (r : ℚ) (h : OptInv st) :
    OptInv (observe st p r) ∧
      (observe st p r).y_history.length = min (st.y_history.length + 1) MAX_OBSERVATIONS := by
  obtain ⟨hXY, hPY, hle, hmem⟩ := h
  have hbmono : st.best_reward ≤
      (if st.best_reward < (r : WithBot ℚ) then (r : WithBot ℚ) else st.best_reward) := by
    by_cases hb : st.best_reward < (r : WithBot ℚ)
    · rw [if_pos hb]; exact le_of_lt hb
    · rw [if_neg hb]
  have hrmono : (r : WithBot ℚ) ≤
      (if st.best_reward < (r : WithBot ℚ) then (r : WithBot ℚ) else st.best_reward) := by
    by_cases hb : st.best_reward < (r : WithBot ℚ)
    · rw [if_pos hb]
    · rw [if_neg hb]; exact le_of_not_lt hb
  have hmem1 : ∀ q ∈ st.y_history ++ [r],
      (q : WithBot ℚ) ≤
        (if st.best_reward < (r : WithBot ℚ) then (r : WithBot ℚ) else st.best_reward) := by
    intro q hq
    rcases List.mem_append.mp hq with hq | hq
    · exact le_trans (hmem q hq) hbmono
    · rw [List.mem_singleton.mp hq]; exact hrmono
  simp only [observe]
  by_cases hc : MAX_OBSERVATIONS < (st.X_history ++ [normalizeParams st.bounds p]).length
  · rw [if_pos hc]
    have hXlen : (st.X_history ++ [normalizeParams st.bounds p]).length
        = st.y_history.length + 1 := by simp [hXY]
    have hylen : (st.y_history ++ [r]).length = st.y_history.length + 1 := by simp
    have hplen : (st.param_history ++ [p]).length = st.y_history.length + 1 := by simp [hPY]
    have hy1ne : st.y_history ++ [r] ≠ [] := by simp
    have hblt : pyIndex (st.y_history ++ [r]) (pyListMax (st.y_history ++ [r]))
        < (st.y_history ++ [r]).length := pyIndex_lt_length (pyListMax_mem hy1ne)
    have hgt : MAX_OBSERVATIONS < st.y_history.length + 1 := by rw [← hXlen]; exact hc
    by_cases hmv : pyIndex (st.y_history ++ [r]) (pyListMax (st.y_history ++ [r]))
        < (st.X_history ++ [normalizeParams st.bounds p]).length - MAX_OBSERVATIONS + 1
    · rw [if_pos hmv, if_pos hmv, if_pos hmv]
      refine ⟨⟨?_, ?_, ?_, ?_⟩, ?_⟩
      · simp [hXY]
      · simp [hPY]
      · simp only [List.length_drop, List.length_set, hylen, hXlen]
        omega
      · intro q hq
        have hq2 := List.mem_of_mem_drop hq
        rcases List.mem_or_eq_of_mem_set hq2 with hq3 | hq3
        · exact hmem1 q hq3
        · rw [hq3, List.getD_eq_getElem _ _ hblt]
          exact hmem1 _ (List.getElem_mem hblt)
      · simp only [List.length_drop, List.length_set, hylen, hXlen]
        omega
    · rw [if_neg hmv, if_neg hmv, if_neg hmv]
      refine ⟨⟨?_, ?_, ?_, ?_⟩, ?_⟩
      · simp [hXY]
      · simp [hPY]
      · simp only [List.length_drop, hylen, hXlen]
        omega
      · intro q hq
        exact hmem1 q (List.mem_of_mem_drop hq)
      · simp only [List.length_drop, hylen, hXlen]
        omega
  · rw [if_neg hc]
    have hc2 : st.y_history.length + 1 ≤ MAX_OBSERVATIONS := by
      have := Nat.not_lt.mp hc
      simpa [hXY] using this
    refine ⟨⟨by simp [hXY], by simp [hPY], by simpa using hc2, hmem1⟩, ?_⟩
    simp only [List.length_append, List.length_cons, List.length_nil]
    omega

theorem runObserve_inv_len (obs : List (List ℚ × ℚ)) :
    ∀ st : OptState, OptInv st →
      OptInv (runObserve st obs) ∧
        (runObserve st obs).y_history.length
          = min (st.y_history.length + obs.length) MAX_OBSERVATIONS := by
  induction obs with
  | nil =>
    intro st h
    refine ⟨h, ?_⟩
    have := h.2.2.1
    simp only [runObserve, List.foldl_nil, List.length_nil]
    omega
  | cons o t ih =>
    intro st h
    have hstep := observe_step st o.1 o.2 h
    have hrec := ih (observe st o.1 o.2) hstep.1
    refine ⟨hrec.1, ?_⟩
    have hfold : runObserve st (o :: t) = runObserve (observe st o.1 o.2) t := rfl
    rw [hfold, hrec.2, hstep.2]
    have := h.2.2.1
    simp only [List.length_cons]
    omega

theorem mkOptimizer_inv (bounds : List (ℚ × ℚ)) : OptInv (mkOptimizer bounds) := by
  refine ⟨rfl, rfl, by simp [mkOptimizer, MAX_OBSERVATIONS], ?_⟩
  intro r hr
  cases hr

/-- C7: after any sequence of `observe` calls on a fresh optimizer, the
three history arrays have equal lengths, the common length never exceeds
`MAX_OBSERVATIONS = 80`, and `best_reward` dominates every entry of
`y_history` (hence `best_reward ≥ max(y_history)`). -/
theorem c7_optimizer_invariants (bounds : List (ℚ × ℚ)) (obs : List (List ℚ × ℚ)) :
    (runObserve (mkOptimizer bounds) obs).X_history.length
        = (runObserve (mkOptimizer bounds) obs).y_history.length ∧
    (runObserve (mkOptimizer bounds) obs).param_history.length
        = (runObserve (mkOptimizer bounds) obs).y_history.length ∧
    (runObserve (mkOptimizer bounds) obs).y_history.length ≤ MAX_OBSERVATIONS ∧
    ∀ r ∈ (runObserve (mkOptimizer bounds) obs).y_history,
      (r : WithBot ℚ) ≤ (runObserve (mkOptimizer bounds) obs).best_reward :=
  (runObserve_inv_len obs (mkOptimizer bounds) (mkOptimizer_inv bounds)).1

unseal Rat.add Rat.mul Rat.sub Rat.inv in
theorem c7_optimizer_invariants_witness :
    ((5 : ℚ) ∈ stC7.y_history) ∧ ((5 : ℚ) : WithBot ℚ) ≤ stC7.best_reward :=
  ⟨by decide, (c7_optimizer_invariants [(0, 1)] obsC7).2.2.2 5 (by decide)⟩

unseal Rat.add Rat.mul Rat.sub Rat.inv in
/-- C4 counterexample: feeding `MAX_OBSERVATIONS + 50` observations whose
first reward (1) is the unique best evicts the best observation: at the
first trim its index is 0, the "copy over the head slot" is a no-op, and
the head is then dropped.  Afterwards `best_reward = 1` appears nowhere
in `y_history` (all zeros) and the best input vector `[1/3]` appears
nowhere in `X_history`, refuting both preservation conjuncts of the
claim; only the length conjunct holds. -/
theorem c4_history_cap_counterexample :
    stC4.best_reward = ((1 : ℚ) : WithBot ℚ) ∧ (1 : ℚ) ∉ stC4.y_history ∧
      [(1 : ℚ)/3] ∉ stC4.X_history ∧ stC4.y_history.length = 80 := by
  decide

unseal Rat.add Rat.mul Rat.sub Rat.inv in
/-- C4 amended: after `MAX_OBSERVATIONS + 50` observations the arrays
hold exactly `MAX_OBSERVATIONS = 80` entries, and `best_reward` dominates
every retained reward; the best-seen observation itself is preserved only
when its index stays at or beyond the trim boundary, and is evicted when
it is the oldest entry (spec §9 records this as an open question). -/
theorem c4_history_cap_amended (bounds : List (ℚ × ℚ)) (obs : List (List ℚ × ℚ))
    (h : obs.length = MAX_OBSERVATIONS + 50) :
    (runObserve (mkOptimizer bounds) obs).X_history.length = MAX_OBSERVATIONS ∧
    ∀ r ∈ (runObserve (mkOptimizer bounds) obs).y_history,
      (r : WithBot ℚ) ≤ (runObserve (mkOptimizer bounds) obs).best_reward := by
  have hr := runObserve_inv_len obs (mkOptimizer bounds) (mkOptimizer_inv bounds)
  refine ⟨?_, hr.1.2.2.2⟩
  rw [hr.1.1, hr.2, h]
  rfl

unseal Rat.add Rat.mul Rat.sub Rat.inv in
theorem c4_history_cap_amended_witness :
    obsC4.length = MAX_OBSERVATIONS + 50 ∧ stC4.X_history.length = MAX_OBSERVATIONS :=
  ⟨by decide, (c4_history_cap_amended [(0, 1)] obsC4 (by decide)).1⟩

unseal Rat.add Rat.mul Rat.sub Rat.inv in
/-- C1 counterexample: after `record_handshake("aa:bb:cc:dd:ee:ff")` with
no client MAC, the captured-client set of that AP is empty, so the AP's
single client (which has a MAC) counts as a new client: in ACTIVE mode
`score_target` returns `min(1·2, 8) = 2`, not `-1000`, and
`plan_epoch([ap])` schedules the AP instead of returning `[]`. -/
theorem c1_already_captured_counterexample :
    engC1.score_target 1000 apCx = 2 ∧ (engC1.plan_epoch 1000 [apCx]).2 ≠ [] := by
  decide

unseal Rat.add Rat.mul Rat.sub Rat.inv in
/-- C1 amended: with the handshake recorded and the AP presenting no
clients (equivalently, no client outside the captured-client set),
`score_target` returns `-1000` and `plan_epoch([ap])` returns `[]`. -/
theorem c1_already_captured_amended :
    engC1.score_target 1000 apCxNoClients = -1000 ∧
      (engC1.plan_epoch 1000 [apCxNoClients]).2 = [] := by
  decide

unseal Rat.add Rat.mul Rat.sub Rat.inv in
/-- C2 counterexample: with `max_interactions_per_epoch = 3`, an
uncaptured WPA2 AP whose score starts positive (21) scores `-100` after
three `record_interaction` calls — but a subsequent `plan_epoch([ap])`
does NOT exclude the AP: `plan_epoch` first clears the per-epoch
counters via `new_epoch()`, so the AP re-enters the plan. -/
theorem c2_budget_saturation_counterexample :
    engFresh.score_target 1000 apCx = 21 ∧
    engC2.score_target 1000 apCx = -100 ∧
    apCx ∈ (engC2.plan_epoch 1000 [apCx]).2.map (fun e => e.1) := by
  decide

unseal Rat.add Rat.mul Rat.sub Rat.inv in
/-- C2 amended: after three `record_interaction` calls in the current
epoch `score_target` returns `-100`; but since `plan_epoch` resets the
epoch counters before scoring, the subsequent `plan_epoch([ap])` includes
the AP again, with only the session-interaction penalty applied
(score `21 - 3 = 18`). -/
theorem c2_budget_saturation_amended :
    engC2.score_target 1000 apCx = -100 ∧
      (engC2.plan_epoch 1000 [apCx]).2 = [(apCx, Attack.assoc_then_deauth, 18)] := by
  decide

/-- C6: in every mode and for every AP list, each `(ap, variant, score)`
entry of the `plan_epoch` output has `score > 0` and a non-`SKIP`
variant, the output is sorted in descending score order, its length is at
most `max_targets_per_epoch`, and in PASSIVE mode the output is empty. -/
theorem c6_plan_epoch_invariants (eng : TacticalEngine) (now : ℚ) (aps : List AP) :
    (∀ e ∈ (eng.plan_epoch now aps).2, 0 < e.2.2 ∧ e.2.1 ≠ Attack.skip) ∧
    List.Sorted (fun a b : AP × Attack × ℚ => b.2.2 ≤ a.2.2) (eng.plan_epoch now aps).2 ∧
    (eng.plan_epoch now aps).2.length ≤ eng.max_targets_per_epoch ∧
    (eng.mode = Mode.passive → (eng.plan_epoch now aps).2 = []) := by
  haveI htr : IsTrans (AP × Attack × ℚ) (fun a b => b.2.2 ≤ a.2.2) :=
    ⟨fun _ _ _ hab hbc => le_trans hbc hab⟩
  haveI hto : IsTotal (AP × Attack × ℚ) (fun a b => b.2.2 ≤ a.2.2) :=
    ⟨fun a b => le_total b.2.2 a.2.2⟩
  simp only [TacticalEngine.plan_epoch]
  by_cases hm : eng.mode = Mode.passive
  · rw [if_pos hm]
    exact ⟨fun e he => absurd he (List.not_mem_nil e), List.sorted_nil, Nat.zero_le _,
      fun _ => rfl⟩
  · rw [if_neg hm]
    refine ⟨?_, ?_, ?_, fun h => absurd h hm⟩
    · intro e he
      have h1 : e ∈ List.insertionSort
          (fun a b : AP × Attack × ℚ => b.2.2 ≤ a.2.2)
          (aps.filterMap (fun ap =>
            let score := TacticalEngine.score_target
              { eng with context := eng.context.new_epoch } now ap
            if 0 < score then
              let attack := TacticalEngine.select_attack
                { eng with context := eng.context.new_epoch } ap
              if attack ≠ Attack.skip then some (ap, attack, score) else none
            else none)) := List.take_subset _ _ he
      have h2 := (List.perm_insertionSort
        (fun a b : AP × Attack × ℚ => b.2.2 ≤ a.2.2) _).mem_iff.mp h1
      obtain ⟨ap, _, heq⟩ := List.mem_filterMap.mp h2
      dsimp only at heq
      split_ifs at heq with hs ha
      · rw [Option.some.injEq] at heq
        rw [← heq]
        exact ⟨hs, ha⟩
    · exact List.Pairwise.sublist (List.take_sublist _ _)
        (List.sorted_insertionSort _ _)
    · simp only [List.length_take]
      exact inf_le_left

theorem c6_plan_epoch_invariants_witness :
    engPassive.mode = Mode.passive ∧ (engPassive.plan_epoch 0 [apCx]).2 = [] :=
  ⟨rfl, (c6_plan_epoch_invariants engPassive 0 [apCx]).2.2.2 rfl⟩

/-- C9: `predict` is total.  With no training data it returns `(0, 1)`.
The clamped Cholesky of the source cannot fail: every diagonal entry is
`sqrt(max(.., 1e-10)) > 0`, so the `except` fallback returning `(0, 1)`
is unreachable (the claim's failure clause holds vacuously) and no
division by zero occurs.  In every other case the returned variance is
`max(.., 1e-10) ≥ ε = 10⁻¹⁰`. -/
theorem c9_predict_total :
    (∀ (gp : GaussianProcess) (x : List ℝ), gp.X = [] → gp.predict x = (0, 1)) ∧
    (∀ (A : ℕ → ℕ → ℝ) (c : ℕ), 0 < cholCol A c c) ∧
    (∀ (gp : GaussianProcess) (x : List ℝ), gp.X ≠ [] → GP_EPS ≤ (gp.predict x).2) := by
  refine ⟨?_, ?_, ?_⟩
  · intro gp x h
    simp [GaussianProcess.predict, h]
  · intro A c
    rw [cholCol]
    simp only [if_pos rfl]
    apply Real.sqrt_pos.mpr
    apply lt_of_lt_of_le _ (le_max_right _ _)
    unfold GP_EPS
    positivity
  · intro gp x h
    have hne : gp.X.isEmpty = false := by
      cases hX : gp.X with
      | nil => exact absurd hX h
      | cons a t => simp [hX]
    simp only [GaussianProcess.predict, hne, Bool.false_eq_true, if_false]
    exact le_max_right _ _

theorem c9_predict_total_witness :
    gpW.X ≠ [] ∧ GP_EPS ≤ (gpW.predict [0]).2 :=
  ⟨by simp [gpW], c9_predict_total.2.2 gpW [0] (by simp [gpW])⟩
